import Mathlib

/-!
Shallow embedding of `src/odauth.js` (class `OneDriveAuth`): a client-side
OAuth2 implicit-grant flow manager.  Strings are modelled as `List Char`
(JS strings restricted to the BMP), JS values that may be `undefined` as
`JsVal`, thrown exceptions and rejected promises as explicit result
constructors, and DOM side effects (cookie reads, popup/iframe opening,
listener registration, callback invocation) as explicit effect traces.
-/

/-- A JS value that is either a string or `undefined` (enough for the
message payloads the library inspects). -/
inductive JsVal where
  | undefined
  | str (s : List Char)
deriving DecidableEq, Repr

/-- JS truthiness for `JsVal`: `undefined` and the empty string are falsy. -/
def jsTruthy : JsVal → Bool
  | .undefined => false
  | .str s => !s.isEmpty

/-- JS strict equality `s === v` between a known string and a `JsVal`. -/
def jsEqStr (s : List Char) : JsVal → Bool
  | .undefined => false
  | .str t => s == t

/-- Configuration held in `this.appInfo` after the constructor ran
(`redirectUri` already augmented with the `clientId` query parameter,
`redirectOrigin` filled in, `requireHttps` defaulted). -/
structure AppInfo where
  clientId : List Char
  scopes : List Char
  redirectUri : List Char
  redirectOrigin : List Char
  requireHttps : Bool
deriving DecidableEq, Repr

/-- Mutable per-instance fields: `this.callbacks` (waiter closures, modelled
by identifiers) and `this.state` (whether the shared pending promise has
been created; the source never resets it). -/
structure ClientState where
  appInfo : AppInfo
  callbacks : List Nat
  state : Bool
deriving DecidableEq, Repr

/-- Browser environment visible to `auth()`: the page protocol and the
current cookie store string (`document.cookie`). -/
structure Env where
  isHttps : Bool
  cookie : List Char
deriving DecidableEq, Repr

/-- The first argument of `auth(callback, wasClicked)`: absent, a function
(identified by a number), or the legacy boolean-`true` shorthand. -/
inductive CbArg where
  | noArg
  | fn (id : Nat)
  | boolTrue
deriving DecidableEq, Repr

/-- JS truthiness of the raw `callback` argument (functions and `true` are
truthy). -/
def cbTruthy : CbArg → Bool
  | .noArg => false
  | _ => true

/-- The normalisation `callback === true` used for `wasClicked`. -/
def cbIsBoolTrue : CbArg → Bool
  | .boolTrue => true
  | _ => false

/-- The normalisation `typeof callback === 'function' ? callback : null`. -/
def cbFn : CbArg → Option Nat
  | .fn i => some i
  | _ => none

/-- Observable side effects of running `auth()` / the message handler. -/
inductive Effect where
  | readCookie
  | invokeCb (id : Nat) (v : JsVal)
  | addListener
  | openPopup (url : List Char)
  | openIframe (url : List Char)
deriving DecidableEq, Repr

/-- Return value (or thrown exception) of an `auth()` call.
`sharedState` means the call returned `this.state`, the one shared pending
promise of the instance. -/
inductive AuthResult where
  | threw (msg : List Char)
  | rejectedPromise (msg : List Char)
  | retTrue
  | retFalse
  | resolvedPromise (t : List Char)
  | sharedState
deriving DecidableEq, Repr

/-- Message of the `Error` thrown/rejected by the HTTPS gate. -/
def httpsMsg : List Char :=
  "HTTPS is required to authorize this application for OneDrive".toList

/-- Method `ensureHttps()`: `!this.appInfo.requireHttps || OneDriveAuth.isHttps()`. -/
def ensureHttps (a : AppInfo) (isHttps : Bool) : Bool :=
  !a.requireHttps || isHttps

/-- First index (JS `indexOf`) at which `ch` occurs in a list. -/
def charIdx (ch : Char) : List Char → Option Nat
  | [] => none
  | c :: t => if c = ch then some 0 else (charIdx ch t).map (· + 1)

/-- JS `s.indexOf(ch, start)`. -/
def idxOfFrom (ch : Char) (s : List Char) (start : Nat) : Option Nat :=
  (charIdx ch (s.drop start)).map (· + start)

/-- First index (JS `indexOf`) at which the pattern `pat` occurs as a
substring of `hay`. -/
def idxOfSub (pat : List Char) : List Char → Option Nat
  | [] => if pat.isPrefixOf ([] : List Char) then some 0 else none
  | c :: t =>
    if pat.isPrefixOf (c :: t) then some 0
    else (idxOfSub pat t).map (· + 1)

/-- JS `s.substring(a, b)` for `a ≤ b`. -/
def jsSubstring (s : List Char) (a b : Nat) : List Char :=
  (s.drop a).take (b - a)

/-- The cookie-name prefix searched for by `getTokenFromCookie`. -/
def cookieName : List Char := "odauth=".toList

/-- Method `getTokenFromCookie()`: substring search for `"odauth="` in
`document.cookie`, extracting up to the next `';'` or the end. -/
def getTokenFromCookie (cookies : List Char) : List Char :=
  match idxOfSub cookieName cookies with
  | some i =>
    let start := i + cookieName.length
    let stop :=
      match idxOfFrom ';' cookies start with
      | some e => e
      | none => cookies.length
    jsSubstring cookies start stop
  | none => []

/-- Characters left unescaped by `encodeURIComponent`. -/
def uriUnreserved (ch : Char) : Bool :=
  ('A' ≤ ch && ch ≤ 'Z') || ('a' ≤ ch && ch ≤ 'z') ||
  ('0' ≤ ch && ch ≤ '9') ||
  (ch = '-' || ch = '_' || ch = '.' || ch = '!' || ch = '~' ||
   ch = '*' || ch = '\'' || ch = '(' || ch = ')')

/-- UTF-8 bytes of a code point. -/
def utf8Bytes (c : Char) : List Nat :=
  let n := c.toNat
  if n < 0x80 then [n]
  else if n < 0x800 then [0xC0 + n / 64, 0x80 + n % 64]
  else if n < 0x10000 then
    [0xE0 + n / 4096, 0x80 + (n / 64) % 64, 0x80 + n % 64]
  else
    [0xF0 + n / 262144, 0x80 + (n / 4096) % 64, 0x80 + (n / 64) % 64,
     0x80 + n % 64]

/-- Uppercase hex digit of a value below 16. -/
def hexUpper (n : Nat) : Char :=
  if n < 10 then Char.ofNat (48 + n) else Char.ofNat (55 + n)

/-- Percent-escape of one byte, `%XY` with uppercase hex. -/
def pctByte (b : Nat) : List Char :=
  ['%', hexUpper (b / 16), hexUpper (b % 16)]

/-- Model of the built-in `encodeURIComponent` (BMP code points). -/
def encodeURIComponent (l : List Char) : List Char :=
  (l.map fun ch =>
    if uriUnreserved ch then [ch]
    else ((utf8Bytes ch).map pctByte).flatten).flatten

/-- The provider authorize endpoint together with the query string built by
`challengeForAuth`, in source order. -/
def authorizeUrl (a : AppInfo) : List Char :=
  "https://login.live.com/oauth20_authorize.srf".toList ++
  "?client_id=".toList ++ a.clientId ++
  "&scope=".toList ++ encodeURIComponent a.scopes ++
  "&response_type=token".toList ++
  "&redirect_uri=".toList ++ encodeURIComponent a.redirectUri

/-- Method `challengeForAuth(wasClicked)`: popup with the plain URL on the
clicked path, hidden iframe with `&display=none` appended otherwise. -/
def challengeForAuth (a : AppInfo) (wasClicked : Bool) : List Effect :=
  let url := authorizeUrl a
  if wasClicked then [.openPopup url]
  else [.openIframe (url ++ "&display=none".toList)]

/-- Method `auth(callback, wasClicked)`, returning the updated instance
state, the returned (or thrown) value, and the trace of side effects. -/
def auth (c : ClientState) (cb : CbArg) (wasClicked : Bool) (env : Env) :
    ClientState × AuthResult × List Effect :=
  if ensureHttps c.appInfo env.isHttps = false then
    if cbTruthy cb then (c, .threw httpsMsg, [])
    else (c, .rejectedPromise httpsMsg, [])
  else
    let wasClicked := wasClicked || cbIsBoolTrue cb
    let callback := cbFn cb
    let token := getTokenFromCookie env.cookie
    if token.isEmpty = false then
      match callback with
      | some i => (c, .retTrue, [.readCookie, .invokeCb i (.str token)])
      | none => (c, .resolvedPromise token, [.readCookie])
    else
      let c1 : ClientState := { c with callbacks := c.callbacks ++ callback.toList }
      if c1.state then
        (c1, if callback.isSome then .retFalse else .sharedState, [.readCookie])
      else
        let c2 : ClientState := { c1 with state := true }
        (c2, (if callback.isSome then .retFalse else .sharedState),
          [.readCookie, .addListener] ++ challengeForAuth c2.appInfo wasClicked)

/-- Fields of a cross-context message payload read by `onAuthenticated`. -/
structure MsgData where
  access_token : JsVal
  clientId : JsVal
  error : JsVal
  error_description : JsVal
deriving DecidableEq, Repr

/-- A `message` event: sender origin plus payload. -/
structure MsgEvent where
  origin : List Char
  data : MsgData
deriving DecidableEq, Repr

/-- Result of the `onAuthenticated` handler: `false` (ignored), a rejected
promise carrying the constructed `Error`, or a resolved promise. -/
inductive HandlerRes where
  | ignored
  | rejectedErr (name : JsVal) (msg : JsVal)
  | resolvedTok (t : JsVal)
deriving DecidableEq, Repr

/-- Method `onAuthenticated(event)`: validate `clientId` and origin, then
either reject with the provider error or drain all waiters and resolve.
The source never clears `this.state` here. -/
def onAuthenticated (c : ClientState) (ev : MsgEvent) :
    ClientState × HandlerRes × List Effect :=
  if jsEqStr c.appInfo.clientId ev.data.clientId = false then (c, .ignored, [])
  else if (c.appInfo.redirectOrigin == ev.origin) = false then (c, .ignored, [])
  else if jsTruthy ev.data.error then
    (c, .rejectedErr ev.data.error ev.data.error_description, [])
  else
    ({ c with callbacks := [] }, .resolvedTok ev.data.access_token,
      c.callbacks.map fun i => .invokeCb i ev.data.access_token)

/-- Static `setCookie(token, expiresInSeconds)`; `now` is the current time
in milliseconds and `utc` renders a millisecond timestamp as
`Date.prototype.toUTCString` does. -/
def setCookie (utc : Int → List Char) (isHttps : Bool) (now : Int)
    (token : List Char) (expiresInSeconds : Int) : List Char :=
  let expiration := now + expiresInSeconds * 1000
  let cookie := "odauth=".toList ++ token ++ "; path=/; expires=".toList ++
    utc expiration
  if isHttps then cookie ++ ";secure".toList else cookie

/-- Steps performed by the `popup(url)` method. -/
inductive PopupStep where
  | windowOpen (url : List Char)
  | consoleLogged (msg : List Char)
  | focused
deriving DecidableEq, Repr

/-- The console message logged when the popup is blocked. -/
def popupFailMsg : List Char := "failed to pop up auth window".toList

/-- An exception escaping the `popup` method. -/
inductive JsExn where
  | typeErr
deriving DecidableEq, Repr

/-- Method `popup(url)`: `window.open`, then `console.error` when the handle
is null, then an unconditional `popup.focus()` — which throws a `TypeError`
on a null handle. `opened` tells whether the browser returned a handle. -/
def popupProc (url : List Char) (opened : Bool) : List PopupStep × Option JsExn :=
  if opened then ([.windowOpen url, .focused], none)
  else ([.windowOpen url, .consoleLogged popupFailMsg], some .typeErr)

/-- Value of a lowercase/uppercase hex digit character. -/
def hexDigit (ch : Char) : Option Nat :=
  if '0' ≤ ch ∧ ch ≤ '9' then some (ch.toNat - 48)
  else if 'A' ≤ ch ∧ ch ≤ 'F' then some (ch.toNat - 55)
  else if 'a' ≤ ch ∧ ch ≤ 'f' then some (ch.toNat - 87)
  else none

/-- Byte value of a two-hex-digit escape. -/
def hexPair (h1 h2 : Char) : Option Nat := do
  let a ← hexDigit h1
  let b ← hexDigit h2
  pure (a * 16 + b)

mutual

/-- Model of the built-in `decodeURIComponent` restricted to BMP results:
`%XY` escapes are decoded as UTF-8 byte sequences of length one to three
(four-byte sequences decode to surrogate pairs in JS and are not modelled);
a malformed escape makes the built-in throw `URIError`, modelled as `none`. -/
def percentDecode : List Char → Option (List Char)
  | [] => some []
  | c :: rest =>
    if c = '%' then pctEscape rest
    else (percentDecode rest).map (c :: ·)

/-- Decoding of the remainder after a `'%'`: one UTF-8 byte sequence of
length one to three spelled as consecutive `%XY` escapes, then the rest of
the input. -/
def pctEscape : List Char → Option (List Char)
  | h1 :: h2 :: rest1 => do
    let b ← hexPair h1 h2
    if b < 0x80 then
      (percentDecode rest1).map (Char.ofNat b :: ·)
    else if 0xC2 ≤ b ∧ b ≤ 0xDF then
      match rest1 with
      | '%' :: g1 :: g2 :: rest2 => do
        let b2 ← hexPair g1 g2
        if 0x80 ≤ b2 ∧ b2 ≤ 0xBF then
          (percentDecode rest2).map
            (Char.ofNat ((b - 0xC0) * 64 + (b2 - 0x80)) :: ·)
        else none
      | _ => none
    else if 0xE0 ≤ b ∧ b ≤ 0xEF then
      match rest1 with
      | '%' :: g1 :: g2 :: '%' :: g3 :: g4 :: rest3 => do
        let b2 ← hexPair g1 g2
        let b3 ← hexPair g3 g4
        if (0x80 ≤ b2 ∧ b2 ≤ 0xBF) ∧ (0x80 ≤ b3 ∧ b3 ≤ 0xBF) then
          (percentDecode rest3).map
            (Char.ofNat (((b - 0xE0) * 64 + (b2 - 0x80)) * 64 + (b3 - 0x80)) :: ·)
        else none
      | _ => none
    else none
  | _ => none

end

/-- Split a list at every character satisfying `p`, dropping separators
(the behaviour of the JS `replace(/[&#]/g, '","')` JSON trick). -/
def splitP (p : Char → Bool) : List Char → List (List Char)
  | [] => [[]]
  | ch :: rest =>
    match splitP p rest with
    | [] => [[]]
    | s :: ss => if p ch then [] :: s :: ss else (ch :: s) :: ss

/-- Separator characters of the redirect-URL parser. -/
def isSep (ch : Char) : Bool := ch == '&' || ch == '#'

/-- Characters that would break the generated JSON string literal. -/
def jsonSafe (l : List Char) : Bool := l.all fun ch => !(ch == '"' || ch == '\\')

/-- Parse one `key=value` segment: exactly one `'='`, JSON-safe pieces, the
value percent-decoded by the JSON reviver (keys are not decoded).  A
malformed segment makes `JSON.parse`/`decodeURIComponent` throw (`none`). -/
def parseSeg (seg : List Char) : Option (List Char × List Char) :=
  match splitP (· == '=') seg with
  | [k, v] =>
    if jsonSafe k ∧ jsonSafe v then (percentDecode v).map fun w => (k, w)
    else none
  | _ => none

/-- Parse every segment, failing when any segment is malformed (the whole
`JSON.parse` call throws in that case). -/
def parseSegs : List (List Char) → Option (List (List Char × List Char))
  | [] => some []
  | seg :: rest => do
    let p ← parseSeg seg
    let ps ← parseSegs rest
    pure (p :: ps)

/-- Parse the concatenated query+fragment payload into key/value pairs. -/
def parsePairs (s : List Char) : Option (List (List Char × List Char)) :=
  parseSegs (splitP isSep s)

/-- Static `getAuthInfoFromUrl()`: requires a non-empty `location.hash`,
then parses `(search + hash).substr(1)`. -/
def getAuthInfoFromUrl (search hash : List Char) :
    Option (List (List Char × List Char)) :=
  if hash.isEmpty then none
  else parsePairs ((search ++ hash).drop 1)

/-- Property read on the JS object built by `JSON.parse`: with duplicate
keys the last occurrence wins; a missing key reads as `undefined`. -/
def objGet (pairs : List (List Char × List Char)) (k : List Char) : JsVal :=
  match (pairs.filter fun p => p.1 == k).getLast? with
  | some p => .str p.2
  | none => .undefined

/-- Property write on the JS object: overwrite every stored occurrence of
the key (last-wins reads then see the new value), append when absent. -/
def objSet (pairs : List (List Char × List Char)) (k v : List Char) :
    List (List Char × List Char) :=
  if pairs.any fun p => p.1 == k then
    pairs.map fun p => if p.1 == k then (k, v) else p
  else pairs ++ [(k, v)]

/-- JS `replace(/\+/g, ' ')`. -/
def replacePlus (l : List Char) : List Char :=
  l.map fun ch => if ch = '+' then ' ' else ch

/-- Static `onAuthCallback()` run in the secondary context, modelled on its
observable outcome: the payload posted to the opener/parent and whether a
cookie was written (`setCookie` runs only on a truthy `access_token`).
`none` models a thrown exception (empty hash or malformed payload). -/
def onAuthCallback (search hash : List Char) :
    Option (List (List Char × List Char) × Bool) := do
  let info ← getAuthInfoFromUrl search hash
  let token := objGet info "access_token".toList
  let info ←
    match objGet info "error_description".toList with
    | .str s =>
      if s.isEmpty = false then do
        let d ← percentDecode s
        pure (objSet info "error_description".toList (replacePlus d))
      else pure info
    | .undefined => pure info
  pure (info, jsTruthy token)

/-- View of a posted payload as the four fields `onAuthenticated` reads. -/
def toMsgData (pairs : List (List Char × List Char)) : MsgData where
  access_token := objGet pairs "access_token".toList
  clientId := objGet pairs "clientId".toList
  error := objGet pairs "error".toList
  error_description := objGet pairs "error_description".toList

/-- Constructor fragment augmenting `redirectUri` with the `clientId` query
parameter: `replace(/(#|$)/, sep + 'clientId=' + clientId + '$1')` inserts
before the first `'#'`, or at the end when there is none. -/
def augmentRedirectUri (uri clientId : List Char) : List Char :=
  let sep : Char := if uri.contains '?' then '&' else '?'
  let ins := sep :: ("clientId=".toList ++ clientId)
  (uri.takeWhile (· ≠ '#')) ++ ins ++ (uri.dropWhile (· ≠ '#'))

/-- Specification-side notion: the pattern `pat` occurs in `hay` starting at
index `i`. -/
def occursAt (pat hay : List Char) (i : Nat) : Prop :=
  pat.isPrefixOf (hay.drop i) = true

instance (pat hay : List Char) (i : Nat) : Decidable (occursAt pat hay i) := by
  unfold occursAt
  infer_instance

/-- Characters safe to appear in the keys and values of the redirect URL
payload: no parser separators (`&`, `#`, `=`), no percent escapes, and
nothing that would break the generated JSON literal. -/
def urlClean (l : List Char) : Bool :=
  l.all fun ch =>
    !(ch == '&' || ch == '#' || ch == '=' || ch == '%' || ch == '"' || ch == '\\')

/-- Characters safe in one raw `key=value` payload segment: no parser
separators (`&`, `#`, `=`) and nothing that would break the generated JSON
literal; percent escapes are allowed (they are handled by the decoders). -/
def urlSegClean (l : List Char) : Bool :=
  l.all fun ch =>
    !(ch == '&' || ch == '#' || ch == '=' || ch == '"' || ch == '\\')

/-- A concrete valid configuration used by concrete instances below. -/
def sampleApp : AppInfo :=
  ⟨"X".toList, "s".toList, "https://app/cb?clientId=X".toList,
   "https://app".toList, true⟩

/-- A fresh client for `sampleApp`: no waiters, no pending flow. -/
def sampleClient : ClientState := ⟨sampleApp, [], false⟩

theorem isPrefixOf_append_self (l r : List Char) : l.isPrefixOf (l ++ r) = true := by
  induction l with
  | nil => simp [List.isPrefixOf]
  | cons c t ih => simp [List.isPrefixOf, ih]

theorem charIdx_not_mem {ch : Char} {l : List Char} (h : ch ∉ l) :
    charIdx ch l = none := by
  induction l with
  | nil => rfl
  | cons c t ih =>
    have hc : ¬c = ch := fun e => h (e ▸ List.mem_cons_self c t)
    have ht : ch ∉ t := fun m => h (List.mem_cons_of_mem _ m)
    simp [charIdx, hc, ih ht]

theorem charIdx_append_not_mem {ch : Char} {l : List Char} (r : List Char)
    (h : ch ∉ l) :
    charIdx ch (l ++ r) = (charIdx ch r).map (· + l.length) := by
  induction l with
  | nil => simp
  | cons c t ih =>
    have hc : ¬c = ch := fun e => h (e ▸ List.mem_cons_self c t)
    have ht : ch ∉ t := fun m => h (List.mem_cons_of_mem _ m)
    cases hr : charIdx ch r with
    | none => simp [List.cons_append, charIdx, hc, ih ht, hr]
    | some k =>
      simp [List.cons_append, charIdx, hc, ih ht, hr]
      omega

theorem idxOfSub_eq_some {pat hay : List Char} {i : Nat}
    (hocc : occursAt pat hay i) (hfirst : ∀ j, j < i → ¬ occursAt pat hay j) :
    idxOfSub pat hay = some i := by
  induction hay generalizing i with
  | nil =>
    cases i with
    | zero => simpa [idxOfSub, occursAt] using hocc
    | succ n =>
      exact absurd (by simpa [occursAt, List.drop_nil] using hocc)
        (by simpa [occursAt, List.drop_nil] using hfirst 0 (Nat.succ_pos n))
  | cons c t ih =>
    cases i with
    | zero =>
      have : pat.isPrefixOf (c :: t) = true := by simpa [occursAt] using hocc
      simp [idxOfSub, this]
    | succ n =>
      have h0 : ¬ (pat.isPrefixOf (c :: t) = true) := by
        simpa [occursAt] using hfirst 0 (Nat.succ_pos n)
      have hocc' : occursAt pat t n := by simpa [occursAt] using hocc
      have hfirst' : ∀ j, j < n → ¬ occursAt pat t j := by
        intro j hj hcon
        exact hfirst (j + 1) (Nat.succ_lt_succ hj) (by simpa [occursAt] using hcon)
      simp [idxOfSub, h0, ih hocc' hfirst']

theorem idxOfSub_eq_none {pat hay : List Char}
    (h : ∀ j, ¬ occursAt pat hay j) : idxOfSub pat hay = none := by
  induction hay with
  | nil => simpa [idxOfSub, occursAt] using h 0
  | cons c t ih =>
    have h0 : ¬ (pat.isPrefixOf (c :: t) = true) := by simpa [occursAt] using h 0
    have ht : ∀ j, ¬ occursAt pat t j := by
      intro j hcon
      exact h (j + 1) (by simpa [occursAt] using hcon)
    simp [idxOfSub, h0, ih ht]

theorem splitP_ne_nil (p : Char → Bool) (l : List Char) : splitP p l ≠ [] := by
  cases l with
  | nil => simp [splitP]
  | cons c t =>
    simp only [splitP]
    cases splitP p t with
    | nil => simp
    | cons s ss =>
      by_cases hp : p c = true <;> simp [hp]

theorem splitP_nosep {p : Char → Bool} {l : List Char}
    (h : ∀ ch ∈ l, p ch = false) : splitP p l = [l] := by
  induction l with
  | nil => rfl
  | cons c t ih =>
    have hc : p c = false := h c (List.mem_cons_self c t)
    have ht : ∀ ch ∈ t, p ch = false := fun ch m => h ch (List.mem_cons_of_mem _ m)
    simp [splitP, ih ht, hc]

theorem splitP_append {p : Char → Bool} {l : List Char} (sep : Char)
    (rest : List Char) (h : ∀ ch ∈ l, p ch = false) (hsep : p sep = true) :
    splitP p (l ++ sep :: rest) = l :: splitP p rest := by
  induction l with
  | nil =>
    obtain ⟨s, ss, hs⟩ := List.exists_cons_of_ne_nil (splitP_ne_nil p rest)
    simp [splitP, hs, hsep]
  | cons c t ih =>
    have hc : p c = false := h c (List.mem_cons_self c t)
    have ht : ∀ ch ∈ t, p ch = false := fun ch m => h ch (List.mem_cons_of_mem _ m)
    simp [splitP, ih ht, hc]

theorem percentDecode_of_not_mem {l : List Char} (h : '%' ∉ l) :
    percentDecode l = some l := by
  induction l with
  | nil => rfl
  | cons c t ih =>
    have hc : ¬c = '%' := fun e => h (e ▸ List.mem_cons_self c t)
    have ht : '%' ∉ t := fun m => h (List.mem_cons_of_mem _ m)
    rw [percentDecode.eq_2, if_neg hc, ih ht]
    rfl

theorem urlClean_chars {l : List Char} (h : urlClean l = true) :
    ∀ ch ∈ l, ch ≠ '&' ∧ ch ≠ '#' ∧ ch ≠ '=' ∧ ch ≠ '%' ∧ ch ≠ '"' ∧ ch ≠ '\\' := by
  intro ch hm
  have := List.all_eq_true.mp h ch hm
  simp only [Bool.not_eq_true', Bool.or_eq_false_iff, beq_eq_false_iff_ne] at this
  exact ⟨this.1.1.1.1.1, this.1.1.1.1.2, this.1.1.1.2, this.1.1.2, this.1.2, this.2⟩

theorem urlClean_no_sep {l : List Char} (h : urlClean l = true) :
    ∀ ch ∈ l, isSep ch = false := by
  intro ch hm
  obtain ⟨h1, h2, -⟩ := urlClean_chars h ch hm
  simp [isSep, h1, h2]

theorem urlClean_no_eq {l : List Char} (h : urlClean l = true) :
    ∀ ch ∈ l, (ch == '=') = false := by
  intro ch hm
  obtain ⟨-, -, h3, -⟩ := urlClean_chars h ch hm
  simp [h3]

theorem urlClean_no_pct {l : List Char} (h : urlClean l = true) : '%' ∉ l := by
  intro hm
  obtain ⟨-, -, -, h4, -⟩ := urlClean_chars h '%' hm
  exact h4 rfl

theorem urlClean_jsonSafe {l : List Char} (h : urlClean l = true) :
    jsonSafe l = true := by
  refine List.all_eq_true.mpr fun ch hm => ?_
  obtain ⟨-, -, -, -, h5, h6⟩ := urlClean_chars h ch hm
  simp [h5, h6]

theorem urlSegClean_chars {l : List Char} (h : urlSegClean l = true) :
    ∀ ch ∈ l, ch ≠ '&' ∧ ch ≠ '#' ∧ ch ≠ '=' ∧ ch ≠ '"' ∧ ch ≠ '\\' := by
  intro ch hm
  have := List.all_eq_true.mp h ch hm
  simp only [Bool.not_eq_true', Bool.or_eq_false_iff, beq_eq_false_iff_ne] at this
  exact ⟨this.1.1.1.1, this.1.1.1.2, this.1.1.2, this.1.2, this.2⟩

theorem urlSegClean_no_sep {l : List Char} (h : urlSegClean l = true) :
    ∀ ch ∈ l, isSep ch = false := by
  intro ch hm
  obtain ⟨h1, h2, -⟩ := urlSegClean_chars h ch hm
  simp [isSep, h1, h2]

theorem urlSegClean_no_eq {l : List Char} (h : urlSegClean l = true) :
    ∀ ch ∈ l, (ch == '=') = false := by
  intro ch hm
  obtain ⟨-, -, h3, -⟩ := urlSegClean_chars h ch hm
  simp [h3]

theorem urlSegClean_jsonSafe {l : List Char} (h : urlSegClean l = true) :
    jsonSafe l = true := by
  refine List.all_eq_true.mpr fun ch hm => ?_
  obtain ⟨-, -, -, h4, h5⟩ := urlSegClean_chars h ch hm
  simp [h4, h5]

theorem urlClean_segClean {l : List Char} (h : urlClean l = true) :
    urlSegClean l = true := by
  refine List.all_eq_true.mpr fun ch hm => ?_
  obtain ⟨h1, h2, h3, -, h5, h6⟩ := urlClean_chars h ch hm
  simp [h1, h2, h3, h5, h6]

/-- Claim C2: on a non-empty cached token, `auth()` invokes a supplied
callback synchronously with that token and returns `true`, or returns a
promise already resolved with the token; the instance state is unchanged
(no PendingFlow is created) and the trace opens no popup, no frame and
registers no listener. -/
theorem auth_cache_hit (c : ClientState) (cb : CbArg) (wc : Bool) (env : Env)
    (t : List Char) (hgate : ensureHttps c.appInfo env.isHttps = true)
    (htok : getTokenFromCookie env.cookie = t) (hne : t ≠ []) :
    (∀ i, cb = .fn i →
      auth c cb wc env = (c, .retTrue, [.readCookie, .invokeCb i (.str t)])) ∧
    (cbFn cb = none →
      auth c cb wc env = (c, .resolvedPromise t, [.readCookie])) := by
  have hemp : t.isEmpty = false := by
    cases t with
    | nil => exact absurd rfl hne
    | cons a b => rfl
  constructor
  · intro i hi
    subst hi
    simp [auth, hgate, htok, hemp, cbFn]
  · intro hn
    cases cb with
    | noArg => simp [auth, hgate, htok, hemp, cbFn]
    | fn i => simp [cbFn] at hn
    | boolTrue => simp [auth, hgate, htok, hemp, cbFn]

/-- Witness for C2 at a concrete cached token. -/
theorem auth_cache_hit_w :
    ensureHttps sampleApp true = true ∧
    getTokenFromCookie "odauth=tok".toList = "tok".toList ∧
    "tok".toList ≠ [] ∧
    auth ⟨sampleApp, [], false⟩ (.fn 2) false ⟨true, "odauth=tok".toList⟩ =
      (⟨sampleApp, [], false⟩, .retTrue,
       [.readCookie, .invokeCb 2 (.str "tok".toList)]) :=
  ⟨by decide, by decide, by decide,
   (auth_cache_hit ⟨sampleApp, [], false⟩ (.fn 2) false
      ⟨true, "odauth=tok".toList⟩ "tok".toList (by decide) (by decide)
      (by decide)).1 2 rfl⟩

/-- Counterexample for C3: with `requireHttps` set and a non-HTTPS page,
the call `auth(true)` — the boolean shorthand, which supplies no callback
function — throws the error synchronously instead of returning a rejected
promise, because the gate tests the truthiness of the raw first argument. -/
theorem https_gate_boolTrue_cex :
    auth sampleClient .boolTrue false ⟨false, []⟩ =
      (sampleClient, .threw httpsMsg, []) ∧
    (auth sampleClient .boolTrue false ⟨false, []⟩).2.1 ≠
      .rejectedPromise httpsMsg := by
  decide

/-- Claim C3 (amended): with `requireHttps` true on a non-HTTPS page,
`auth()` fails with the HTTPS-required error — thrown synchronously
whenever the first argument is truthy (a callback function or the boolean
`true` shorthand), and returned as a rejected promise only when the first
argument is absent — and performs no other action: the state is unchanged
and the effect trace is empty (no cookie read, no popup or frame, no
listener, no waiter recorded). -/
theorem https_gate_fails (c : ClientState) (cb : CbArg) (wc : Bool)
    (env : Env) (hreq : c.appInfo.requireHttps = true)
    (hns : env.isHttps = false) :
    auth c cb wc env =
      (c, (if cbTruthy cb then .threw httpsMsg else .rejectedPromise httpsMsg),
       []) := by
  have hgate : ensureHttps c.appInfo env.isHttps = false := by
    simp [ensureHttps, hreq, hns]
  cases hb : cbTruthy cb <;> simp [auth, hgate, hb]

/-- Witness for the amended C3 at a concrete client and callback. -/
theorem https_gate_fails_w :
    sampleClient.appInfo.requireHttps = true ∧
    auth sampleClient (.fn 0) false ⟨false, []⟩ =
      (sampleClient, .threw httpsMsg, []) :=
  ⟨by decide,
   by
    have h := https_gate_fails sampleClient (.fn 0) false ⟨false, []⟩
      (by decide) rfl
    simpa [cbTruthy] using h⟩

/-- Claim C5: a message whose `clientId` differs from the configured id, or
whose sender origin differs from `redirectOrigin`, is discarded: the
handler returns the inert `false` result, invokes no waiter, and leaves the
client state (waiter list and pending flow) unchanged. -/
theorem msg_mismatch_ignored (c : ClientState) (ev : MsgEvent)
    (h : jsEqStr c.appInfo.clientId ev.data.clientId = false ∨
         (c.appInfo.redirectOrigin == ev.origin) = false) :
    onAuthenticated c ev = (c, .ignored, []) := by
  rcases h with h | h
  · simp [onAuthenticated, h]
  · by_cases h1 : jsEqStr c.appInfo.clientId ev.data.clientId = false
    · simp [onAuthenticated, h1]
    · simp only [Bool.not_eq_false] at h1
      simp [onAuthenticated, h1, h]

/-- Witness for C5: a message for another client id, carrying a token, is
ignored while waiters are pending. -/
theorem msg_mismatch_ignored_w :
    jsEqStr sampleApp.clientId (.str "Y".toList) = false ∧
    onAuthenticated ⟨sampleApp, [4], true⟩
      ⟨"https://app".toList,
       ⟨.str "T".toList, .str "Y".toList, .undefined, .undefined⟩⟩ =
      (⟨sampleApp, [4], true⟩, .ignored, []) :=
  ⟨by decide,
   msg_mismatch_ignored ⟨sampleApp, [4], true⟩
     ⟨"https://app".toList, ⟨.str "T".toList, .str "Y".toList, .undefined, .undefined⟩⟩
     (Or.inl (by decide))⟩

/-- Claim C7: `setCookie` produces exactly
`odauth=<token>; path=/; expires=<E>` where `<E>` is the UTC rendering of
the current time advanced by `expires_in` seconds (milliseconds timeline),
with `;secure` appended if and only if the page is served over HTTPS. -/
theorem setCookie_format (utc : Int → List Char) (https : Bool) (now : Int)
    (t : List Char) (s : Int) :
    setCookie utc https now t s =
      ("odauth=".toList ++ t ++ "; path=/; expires=".toList ++
        utc (now + s * 1000)) ++
      (if https then ";secure".toList else []) := by
  cases https <;> simp [setCookie]

/-- Claim C8: the challenge URL is the provider endpoint followed by
`client_id`, URL-encoded `scope`, `response_type=token` and the URL-encoded
augmented `redirect_uri`, in that order; `&display=none` is appended
exactly on the non-clicked (silent iframe) path and absent on the popup
path. -/
theorem challenge_url_format (clientId scopes uri origin : List Char)
    (req wc : Bool) :
    challengeForAuth ⟨clientId, scopes, augmentRedirectUri uri clientId,
        origin, req⟩ wc =
      (if wc then
        [Effect.openPopup
          ("https://login.live.com/oauth20_authorize.srf".toList ++
           "?client_id=".toList ++ clientId ++
           "&scope=".toList ++ encodeURIComponent scopes ++
           "&response_type=token".toList ++
           "&redirect_uri=".toList ++
           encodeURIComponent (augmentRedirectUri uri clientId))]
      else
        [Effect.openIframe
          ("https://login.live.com/oauth20_authorize.srf".toList ++
           "?client_id=".toList ++ clientId ++
           "&scope=".toList ++ encodeURIComponent scopes ++
           "&response_type=token".toList ++
           "&redirect_uri=".toList ++
           encodeURIComponent (augmentRedirectUri uri clientId) ++
           "&display=none".toList)]) := by
  cases wc <;> simp [challengeForAuth, authorizeUrl, List.append_assoc]

/-- Claim C9 (code bug): when `window.open` returns a null handle, the
method logs the failure but then still calls `popup.focus()` on the null
handle, raising a `TypeError` — it does not complete without faulting. -/
theorem popup_blocked_throws :
    popupProc "https://login.live.com/oauth20_authorize.srf".toList false =
      ([.windowOpen "https://login.live.com/oauth20_authorize.srf".toList,
        .consoleLogged popupFailMsg], some .typeErr) ∧
    (popupProc "https://login.live.com/oauth20_authorize.srf".toList false).2 ≠
      none := by
  decide

/-- Claim C1: on a cache miss while a PendingFlow exists (`this.state` set),
`auth()` opens no popup and no frame and adds no listener (the trace is the
cookie read only), a function callback is appended to the existing waiter
list with `false` returned, a promise-style call receives the shared
`this.state` promise, and a single valid success message resolves with the
token and drains every registered waiter. -/
theorem auth_pending_join (c : ClientState) (cb : CbArg) (wc : Bool)
    (env : Env) (hgate : ensureHttps c.appInfo env.isHttps = true)
    (hmiss : getTokenFromCookie env.cookie = [])
    (hpend : c.state = true) :
    (auth c cb wc env).2.2 = [.readCookie] ∧
    (auth c cb wc env).1.appInfo = c.appInfo ∧
    (auth c cb wc env).1.state = true ∧
    (∀ i, cb = .fn i →
      (auth c cb wc env).1.callbacks = c.callbacks ++ [i] ∧
      (auth c cb wc env).2.1 = .retFalse) ∧
    (cb = .noArg →
      (auth c cb wc env).1.callbacks = c.callbacks ∧
      (auth c cb wc env).2.1 = .sharedState) ∧
    (∀ (tok : JsVal) (ev : MsgEvent),
      jsEqStr c.appInfo.clientId ev.data.clientId = true →
      (c.appInfo.redirectOrigin == ev.origin) = true →
      jsTruthy ev.data.error = false →
      ev.data.access_token = tok →
      (onAuthenticated (auth c cb wc env).1 ev).2.1 = .resolvedTok tok ∧
      (onAuthenticated (auth c cb wc env).1 ev).2.2 =
        ((auth c cb wc env).1.callbacks).map fun j => Effect.invokeCb j tok) := by
  have hA : auth c cb wc env =
      ({ c with callbacks := c.callbacks ++ (cbFn cb).toList },
       (if (cbFn cb).isSome then .retFalse else .sharedState),
       [.readCookie]) := by
    simp [auth, hgate, hmiss, hpend]
  refine ⟨by rw [hA], by rw [hA], by rw [hA]; exact hpend, ?_, ?_, ?_⟩
  · intro i hi
    subst hi
    rw [hA]
    simp [cbFn]
  · intro hi
    subst hi
    rw [hA]
    simp [cbFn]
  · intro tok ev h1 h2 h3 h4
    have happ : (auth c cb wc env).1.appInfo = c.appInfo := by rw [hA]
    constructor
    · simp [onAuthenticated, happ, h1, h2, h3, h4]
    · simp [onAuthenticated, happ, h1, h2, h3, h4]

/-- Witness for C1: joining a pending flow from a second clicked call. -/
theorem auth_pending_join_w :
    ensureHttps sampleApp true = true ∧
    getTokenFromCookie [] = [] ∧
    (⟨sampleApp, [7], true⟩ : ClientState).state = true ∧
    (auth ⟨sampleApp, [7], true⟩ (.fn 3) true ⟨true, []⟩).2.2 = [.readCookie] ∧
    (auth ⟨sampleApp, [7], true⟩ (.fn 3) true ⟨true, []⟩).1.callbacks =
      [7] ++ [3] ∧
    (auth ⟨sampleApp, [7], true⟩ (.fn 3) true ⟨true, []⟩).2.1 = .retFalse ∧
    (onAuthenticated (auth ⟨sampleApp, [7], true⟩ (.fn 3) true ⟨true, []⟩).1
      ⟨"https://app".toList,
       ⟨.str "T".toList, .str "X".toList, .undefined, .undefined⟩⟩).2.1 =
      .resolvedTok (.str "T".toList) := by
  have H := auth_pending_join ⟨sampleApp, [7], true⟩ (.fn 3) true ⟨true, []⟩
    (by decide) (by decide) rfl
  exact ⟨by decide, by decide, rfl, H.1, (H.2.2.2.1 3 rfl).1,
    (H.2.2.2.1 3 rfl).2,
    (H.2.2.2.2.2 (.str "T".toList)
      ⟨"https://app".toList,
       ⟨.str "T".toList, .str "X".toList, .undefined, .undefined⟩⟩
      (by decide) (by decide) rfl rfl).1⟩

/-- Counterexample for C4: the handler does not clear the PendingFlow.
After a validated success message is processed, `this.state` is still set,
so a subsequent `auth()` call that misses the cache merely joins the dead
flow — its trace is the cookie read alone, with no popup, frame or
listener, i.e. no fresh challenge is started. -/
theorem pending_flow_not_cleared_cex :
    (onAuthenticated ⟨sampleApp, [], true⟩
      ⟨"https://app".toList,
       ⟨.str "T".toList, .str "X".toList, .undefined, .undefined⟩⟩).2.1 =
      .resolvedTok (.str "T".toList) ∧
    (onAuthenticated ⟨sampleApp, [], true⟩
      ⟨"https://app".toList,
       ⟨.str "T".toList, .str "X".toList, .undefined, .undefined⟩⟩).1.state = true ∧
    (auth (onAuthenticated ⟨sampleApp, [], true⟩
        ⟨"https://app".toList,
         ⟨.str "T".toList, .str "X".toList, .undefined, .undefined⟩⟩).1
      (.fn 0) true ⟨true, []⟩).2.2 = [.readCookie] := by
  decide

/-- Claim C4 (amended): on a validated success message every registered
waiter is invoked exactly once, in FIFO registration order, with the token,
and the shared result resolves with the token; but the PendingFlow marker
`this.state` is not cleared, so a later cache-missing `auth()` joins the
completed flow instead of starting a fresh challenge. -/
theorem msg_success_drains (c : ClientState) (ev : MsgEvent)
    (h1 : jsEqStr c.appInfo.clientId ev.data.clientId = true)
    (h2 : (c.appInfo.redirectOrigin == ev.origin) = true)
    (h3 : jsTruthy ev.data.error = false) :
    onAuthenticated c ev =
      ({ c with callbacks := [] }, .resolvedTok ev.data.access_token,
       c.callbacks.map fun i => Effect.invokeCb i ev.data.access_token) ∧
    (onAuthenticated c ev).1.state = c.state := by
  constructor <;> simp [onAuthenticated, h1, h2, h3]

/-- Witness for the amended C4: two waiters drained in order, state kept. -/
theorem msg_success_drains_w :
    jsEqStr sampleApp.clientId (.str "X".toList) = true ∧
    onAuthenticated ⟨sampleApp, [1, 2], true⟩
      ⟨"https://app".toList,
       ⟨.str "T".toList, .str "X".toList, .undefined, .undefined⟩⟩ =
      (⟨sampleApp, [], true⟩, .resolvedTok (.str "T".toList),
       [.invokeCb 1 (.str "T".toList), .invokeCb 2 (.str "T".toList)]) :=
  ⟨by decide,
   (msg_success_drains ⟨sampleApp, [1, 2], true⟩
     ⟨"https://app".toList, ⟨.str "T".toList, .str "X".toList, .undefined, .undefined⟩⟩
     (by decide) (by decide) rfl).1⟩

/-- Claim C10: the cached-token lookup (a) returns the empty string when
`"odauth="` occurs nowhere in the cookie store, (b) returns exactly the
characters strictly between the first occurrence of `"odauth="` and the
next `';'` after it (or the end of the store when no `';'` follows), and
(c) matches by substring rather than by cookie name, so a cookie named
`xodauth` is also treated as a hit. -/
theorem cookie_lookup_spec :
    (∀ cookies : List Char,
      (∀ i, i < cookies.length + 1 → ¬ occursAt cookieName cookies i) →
      getTokenFromCookie cookies = []) ∧
    (∀ pre v suf : List Char,
      (∀ j, j < pre.length →
        ¬ occursAt cookieName (pre ++ cookieName ++ v ++ suf) j) →
      ';' ∉ v →
      (suf = [] ∨ ∃ s1, suf = ';' :: s1) →
      getTokenFromCookie (pre ++ cookieName ++ v ++ suf) = v) ∧
    getTokenFromCookie "xodauth=T;other=1".toList = "T".toList := by
  refine ⟨?_, ?_, by decide⟩
  · intro cookies h
    have hall : ∀ j, ¬ occursAt cookieName cookies j := by
      intro j hj
      by_cases hle : j < cookies.length + 1
      · exact h j hle hj
      · have hdrop : cookies.drop j = [] := List.drop_eq_nil_of_le (by omega)
        unfold occursAt at hj
        rw [hdrop] at hj
        exact absurd hj (by decide)
    simp [getTokenFromCookie, idxOfSub_eq_none hall]
  · intro pre v suf hfirst hnosemi hsuf
    have hshape : pre ++ cookieName ++ v ++ suf =
        pre ++ (cookieName ++ (v ++ suf)) := by
      simp [List.append_assoc]
    have hocc : occursAt cookieName (pre ++ cookieName ++ v ++ suf)
        pre.length := by
      unfold occursAt
      rw [hshape, List.drop_left]
      exact isPrefixOf_append_self _ _
    have hidx : idxOfSub cookieName (pre ++ cookieName ++ v ++ suf) =
        some pre.length := idxOfSub_eq_some hocc hfirst
    have hlen : cookieName.length = 7 := by decide
    have hdrop2 : (pre ++ cookieName ++ v ++ suf).drop (pre.length + 7) =
        v ++ suf := by
      have h1 : pre ++ cookieName ++ v ++ suf =
          (pre ++ cookieName) ++ (v ++ suf) := by simp [List.append_assoc]
      have h2 := List.drop_left (pre ++ cookieName) (v ++ suf)
      rw [List.length_append, hlen] at h2
      rw [h1, h2]
    rcases hsuf with rfl | ⟨s1, rfl⟩
    · simp only [List.append_nil] at hidx hdrop2 ⊢
      have hsemi : charIdx ';' v = none := charIdx_not_mem hnosemi
      have hlen2 : (pre ++ cookieName ++ v).length =
          pre.length + 7 + v.length := by
        simp [List.length_append, hlen]
        omega
      simp only [getTokenFromCookie, hidx, hlen, idxOfFrom, hdrop2, hsemi,
        Option.map_none', jsSubstring, hlen2]
      rw [show pre.length + 7 + v.length - (pre.length + 7) = v.length by omega]
      exact List.take_length v
    · have hsemi : charIdx ';' (v ++ ';' :: s1) = some v.length := by
        rw [charIdx_append_not_mem _ hnosemi]
        simp [charIdx]
      simp only [getTokenFromCookie, hidx, hlen, idxOfFrom, hdrop2, hsemi,
        Option.map_some', jsSubstring, hdrop2]
      rw [show v.length + (pre.length + 7) - (pre.length + 7) = v.length by
        omega]
      exact List.take_left v _

/-- Witness for C10: a token extracted from the middle of a cookie store. -/
theorem cookie_lookup_spec_w :
    (∀ j, j < ("a; ".toList).length →
      ¬ occursAt cookieName
        ("a; ".toList ++ cookieName ++ "tok".toList ++ ";x=1".toList) j) ∧
    ';' ∉ "tok".toList ∧
    getTokenFromCookie
      ("a; ".toList ++ cookieName ++ "tok".toList ++ ";x=1".toList) =
      "tok".toList :=
  ⟨by decide, by decide,
   cookie_lookup_spec.2.1 "a; ".toList "tok".toList ";x=1".toList (by decide)
     (by decide) (Or.inr ⟨"x=1".toList, by decide⟩)⟩

theorem all_false_append {p : Char → Bool} {l r : List Char}
    (hl : ∀ ch ∈ l, p ch = false) (hr : ∀ ch ∈ r, p ch = false) :
    ∀ ch ∈ l ++ r, p ch = false := by
  intro ch hm
  rcases List.mem_append.mp hm with h | h
  exacts [hl ch h, hr ch h]

theorem parseSeg_decode (k v v1 : List Char)
    (hk : ∀ ch ∈ k, (ch == '=') = false) (hkj : jsonSafe k = true)
    (hv : urlSegClean v = true) (hdec : percentDecode v = some v1) :
    parseSeg (k ++ '=' :: v) = some (k, v1) := by
  unfold parseSeg
  rw [splitP_append '=' v hk (by decide), splitP_nosep (urlSegClean_no_eq hv)]
  simp [hkj, urlSegClean_jsonSafe hv, hdec]

/-- Counterexample for C6: the description is percent-decoded twice (once
by the `JSON.parse` reviver in `getAuthInfoFromUrl`, once more in
`onAuthCallback`), so `error_description=7%2525off` produces the message
`7%off`, while the claim's single decode of the carried value yields
`7%25off`; and a description decoding once to `100%` (raw `100%25`) makes
the second decode throw `URIError`, so nothing is posted and no rejection
happens at all. -/
theorem error_double_decode_cex :
    onAuthCallback ("?clientId=".toList ++ sampleApp.clientId)
        "#error=access_denied&error_description=7%2525off".toList =
      some ([("clientId".toList, "X".toList),
             ("error".toList, "access_denied".toList),
             ("error_description".toList, "7%off".toList)], false) ∧
    (onAuthenticated ⟨sampleApp, [], true⟩
      ⟨sampleApp.redirectOrigin,
       toMsgData [("clientId".toList, "X".toList),
                  ("error".toList, "access_denied".toList),
                  ("error_description".toList, "7%off".toList)]⟩).2.1 =
      .rejectedErr (.str "access_denied".toList) (.str "7%off".toList) ∧
    percentDecode "7%2525off".toList = some "7%25off".toList ∧
    ("7%off".toList : List Char) ≠ "7%25off".toList ∧
    onAuthCallback ("?clientId=".toList ++ sampleApp.clientId)
        "#error=access_denied&error_description=100%25".toList = none := by
  decide

/-- Claim C6 (amended): for a redirect carrying `error` and
`error_description` (plus the echoed `clientId`), the handshake posts a
payload whose error name is the once-decoded error code and whose
description is the raw value percent-decoded twice — once by the URL
parser's reviver and once more by the callback handler — with every `'+'`
then replaced by a space; no cookie is written (the token field is falsy).
On a matching clientId and origin the client handler rejects the shared
result with that name and message, invoking no registered callback and
leaving the client state untouched.  (When the second decode fails, the
handshake itself throws `URIError` and posts nothing — see the
counterexample's last conjunct.) -/
theorem error_redirect_rejects (c : ClientState) (e e1 d d1 d2 : List Char)
    (hcid : urlClean c.appInfo.clientId = true)
    (he : urlSegClean e = true) (hd : urlSegClean d = true)
    (hde : percentDecode e = some e1)
    (hd1 : percentDecode d = some d1)
    (hd2 : percentDecode d1 = some d2)
    (he1ne : e1 ≠ []) (hd1ne : d1 ≠ []) :
    onAuthCallback ("?clientId=".toList ++ c.appInfo.clientId)
        ("#error=".toList ++ e ++ "&error_description=".toList ++ d) =
      some ([("clientId".toList, c.appInfo.clientId),
             ("error".toList, e1),
             ("error_description".toList, replacePlus d2)], false) ∧
    onAuthenticated c
      ⟨c.appInfo.redirectOrigin,
       toMsgData [("clientId".toList, c.appInfo.clientId),
                  ("error".toList, e1),
                  ("error_description".toList, replacePlus d2)]⟩ =
      (c, .rejectedErr (.str e1) (.str (replacePlus d2)), []) := by
  have hp1 : parseSeg ("clientId=".toList ++ c.appInfo.clientId) =
      some ("clientId".toList, c.appInfo.clientId) := by
    rw [show ("clientId=".toList : List Char) ++ c.appInfo.clientId =
        "clientId".toList ++ '=' :: c.appInfo.clientId from by
      rw [show ("clientId=".toList : List Char) = "clientId".toList ++ ['=']
        from by decide]
      simp]
    exact parseSeg_decode _ _ _ (by decide) (by decide)
      (urlClean_segClean hcid)
      (percentDecode_of_not_mem (urlClean_no_pct hcid))
  have hp2 : parseSeg ("error=".toList ++ e) = some ("error".toList, e1) := by
    rw [show ("error=".toList : List Char) ++ e =
        "error".toList ++ '=' :: e from by
      rw [show ("error=".toList : List Char) = "error".toList ++ ['=']
        from by decide]
      simp]
    exact parseSeg_decode _ _ _ (by decide) (by decide) he hde
  have hp3 : parseSeg ("error_description=".toList ++ d) =
      some ("error_description".toList, d1) := by
    rw [show ("error_description=".toList : List Char) ++ d =
        "error_description".toList ++ '=' :: d from by
      rw [show ("error_description=".toList : List Char) =
        "error_description".toList ++ ['='] from by decide]
      simp]
    exact parseSeg_decode _ _ _ (by decide) (by decide) hd hd1
  have hsega : ∀ ch ∈ ("clientId=".toList ++ c.appInfo.clientId),
      isSep ch = false :=
    all_false_append (by decide) (urlClean_no_sep hcid)
  have hsegb : ∀ ch ∈ ("error=".toList ++ e), isSep ch = false :=
    all_false_append (by decide) (urlSegClean_no_sep he)
  have hsegc : ∀ ch ∈ ("error_description=".toList ++ d), isSep ch = false :=
    all_false_append (by decide) (urlSegClean_no_sep hd)
  have hsplit : splitP isSep (("clientId=".toList ++ c.appInfo.clientId) ++
      '#' :: (("error=".toList ++ e) ++
        '&' :: ("error_description=".toList ++ d))) =
      [("clientId=".toList ++ c.appInfo.clientId), ("error=".toList ++ e),
       ("error_description=".toList ++ d)] := by
    rw [splitP_append '#' _ hsega (by decide),
        splitP_append '&' _ hsegb (by decide),
        splitP_nosep hsegc]
  have hdropEq : ((("?clientId=".toList ++ c.appInfo.clientId) ++
      ("#error=".toList ++ e ++ "&error_description=".toList ++ d)).drop 1) =
      (("clientId=".toList ++ c.appInfo.clientId) ++
       '#' :: (("error=".toList ++ e) ++
         '&' :: ("error_description=".toList ++ d))) := by
    rw [show ("?clientId=".toList : List Char) = '?' :: "clientId=".toList
          from by decide,
        show ("#error=".toList : List Char) = '#' :: "error=".toList
          from by decide,
        show ("&error_description=".toList : List Char) =
          '&' :: "error_description=".toList from by decide]
    simp [List.append_assoc]
  have hinfo : getAuthInfoFromUrl
      ("?clientId=".toList ++ c.appInfo.clientId)
      ("#error=".toList ++ e ++ "&error_description=".toList ++ d) =
      some [("clientId".toList, c.appInfo.clientId), ("error".toList, e1),
            ("error_description".toList, d1)] := by
    have hhne : ("#error=".toList ++ e ++
        "&error_description=".toList ++ d).isEmpty = false := by
      rw [show ("#error=".toList : List Char) = '#' :: "error=".toList
        from by decide]
      rfl
    unfold getAuthInfoFromUrl parsePairs
    rw [if_neg (by simp [hhne]), hdropEq, hsplit]
    simp only [parseSegs]
    rw [hp1, hp2, hp3]
    rfl
  have b1 : (("clientId".toList : List Char) == "access_token".toList) =
      false := by decide
  have b2 : (("error".toList : List Char) == "access_token".toList) =
      false := by decide
  have b3 : (("error_description".toList : List Char) ==
      "access_token".toList) = false := by decide
  have b4 : (("clientId".toList : List Char) ==
      "error_description".toList) = false := by decide
  have b5 : (("error".toList : List Char) == "error_description".toList) =
      false := by decide
  have b6 : (("error_description".toList : List Char) ==
      "error_description".toList) = true := by decide
  have b7 : (("clientId".toList : List Char) == "clientId".toList) =
      true := by decide
  have b8 : (("error".toList : List Char) == "clientId".toList) =
      false := by decide
  have b9 : (("error_description".toList : List Char) ==
      "clientId".toList) = false := by decide
  have b10 : (("clientId".toList : List Char) == "error".toList) =
      false := by decide
  have b11 : (("error".toList : List Char) == "error".toList) = true := by
    decide
  have b12 : (("error_description".toList : List Char) == "error".toList) =
      false := by decide
  have hdemp : d1.isEmpty = false := by
    cases d1 with
    | nil => exact absurd rfl hd1ne
    | cons a b => rfl
  have hat : objGet [("clientId".toList, c.appInfo.clientId),
      ("error".toList, e1), ("error_description".toList, d1)]
      "access_token".toList = .undefined := by
    simp [objGet, List.filter, b1, b2, b3]
  have hed : objGet [("clientId".toList, c.appInfo.clientId),
      ("error".toList, e1), ("error_description".toList, d1)]
      "error_description".toList = .str d1 := by
    simp [objGet, List.filter, b4, b5, b6]
  have hset : objSet [("clientId".toList, c.appInfo.clientId),
      ("error".toList, e1), ("error_description".toList, d1)]
      "error_description".toList (replacePlus d2) =
      [("clientId".toList, c.appInfo.clientId), ("error".toList, e1),
       ("error_description".toList, replacePlus d2)] := by
    simp [objSet, b4, b5, b6]
  constructor
  · unfold onAuthCallback
    rw [hinfo]
    simp only [Option.bind_eq_bind, Option.some_bind, hat, hed, hdemp,
      Bool.false_eq_true, not_false_eq_true, if_true, hd2, hset]
    simp [jsTruthy]
  · have hmd_cid : objGet [("clientId".toList, c.appInfo.clientId),
        ("error".toList, e1), ("error_description".toList, replacePlus d2)]
        "clientId".toList = .str c.appInfo.clientId := by
      simp [objGet, List.filter, b7, b8, b9]
    have hmd_err : objGet [("clientId".toList, c.appInfo.clientId),
        ("error".toList, e1), ("error_description".toList, replacePlus d2)]
        "error".toList = .str e1 := by
      simp [objGet, List.filter, b10, b11, b12]
    have hmd_ed : objGet [("clientId".toList, c.appInfo.clientId),
        ("error".toList, e1), ("error_description".toList, replacePlus d2)]
        "error_description".toList = .str (replacePlus d2) := by
      simp [objGet, List.filter, b4, b5, b6]
    have h1 : jsEqStr c.appInfo.clientId (.str c.appInfo.clientId) =
        true := by simp [jsEqStr]
    have h3 : jsTruthy (.str e1) = true := by
      cases e1 with
      | nil => exact absurd rfl he1ne
      | cons a b => rfl
    unfold onAuthenticated toMsgData
    rw [hmd_cid, hmd_err, hmd_ed, h1, h3]
    simp

/-- Witness for the amended C6 at the percent-encoded description
`7%2525off` (decoding to `7%25off`, then to `7%off`). -/
theorem error_redirect_rejects_w :
    urlSegClean "7%2525off".toList = true ∧
    percentDecode "7%2525off".toList = some "7%25off".toList ∧
    percentDecode "7%25off".toList = some "7%off".toList ∧
    onAuthCallback ("?clientId=".toList ++ sampleApp.clientId)
        ("#error=".toList ++ "access_denied".toList ++
         "&error_description=".toList ++ "7%2525off".toList) =
      some ([("clientId".toList, sampleApp.clientId),
             ("error".toList, "access_denied".toList),
             ("error_description".toList,
              replacePlus "7%off".toList)], false) ∧
    onAuthenticated ⟨sampleApp, [9], true⟩
      ⟨sampleApp.redirectOrigin,
       toMsgData [("clientId".toList, sampleApp.clientId),
                  ("error".toList, "access_denied".toList),
                  ("error_description".toList,
                   replacePlus "7%off".toList)]⟩ =
      (⟨sampleApp, [9], true⟩,
       .rejectedErr (.str "access_denied".toList)
         (.str (replacePlus "7%off".toList)), []) := by
  have H := error_redirect_rejects ⟨sampleApp, [9], true⟩
    "access_denied".toList "access_denied".toList
    "7%2525off".toList "7%25off".toList "7%off".toList
    (by decide) (by decide) (by decide) (by decide) (by decide) (by decide)
    (by decide) (by decide)
  exact ⟨by decide, by decide, by decide, H.1, H.2⟩
